import Mathlib

/-
Verification of the DS1307 real-time-clock driver (register-level I2C driver).

The development shallowly embeds the driver's source:
  * pure binary-coded-decimal conversion and the date-time codec
    (src/datetime.rs);
  * a bus model: the device register file plus a log of the I2C transactions
    an operation issues (src/ds1307.rs primitives);
  * the bit-field read-modify-write operations (src/ds1307.rs);
  * square-wave control (src/square_wave.rs) and NVRAM access (src/nvram.rs).

External collaborators (the rtc-hal calendar value, its BCD helpers, the
register map constants) are not among the provided sources; they are modelled
from the specification's interface contracts and marked as such.
-/

namespace DS1307

/-- Modelled from the spec: rtc-hal BCD decoding,
to_decimal(byte) = (byte >> 4) * 10 + (byte & 0x0F). -/
def toDecimal (b : Nat) : Nat := (b >>> 4) * 10 + (b &&& 0x0F)

/-- Modelled from the spec: rtc-hal BCD encoding,
from_decimal(value) = ((value / 10) << 4) | (value % 10). -/
def fromDecimal (v : Nat) : Nat := ((v / 10) <<< 4) ||| (v % 10)

/-- Modelled from the spec: error kinds of the external calendar-value
collaborator (rtc-hal DateTimeError). -/
inductive DateTimeError
  | invalidYear
  | invalidMonth
  | invalidDay
  | invalidHour
  | invalidMinute
  | invalidSecond
deriving DecidableEq

/-- Modelled from the spec: the normalized calendar value (rtc-hal DateTime). -/
structure DateTime where
  year : Nat
  month : Nat
  day_of_month : Nat
  hour : Nat
  minute : Nat
  second : Nat
deriving DecidableEq

/-- Modelled from the spec: leap-year rule handled by the calendar
collaborator. -/
def isLeapYear (y : Nat) : Bool :=
  (y % 4 == 0 && y % 100 != 0) || y % 400 == 0

/-- Modelled from the spec: days in each month (day-of-month 1-31 depending on
month, February depending on the leap-year rule). -/
def daysInMonth (y m : Nat) : Nat :=
  if m = 2 then (if isLeapYear y then 29 else 28)
  else if m = 4 ∨ m = 6 ∨ m = 9 ∨ m = 11 then 30
  else 31

/-- Modelled from the spec: the calendar-value constructor enforcing calendar
validity (month 1-12, valid day-of-month, hour 0-23, minute/second 0-59). -/
def DateTime.new (year month day hour minute second : Nat) :
    Except DateTimeError DateTime :=
  if month < 1 ∨ 12 < month then .error .invalidMonth
  else if day < 1 ∨ daysInMonth year month < day then .error .invalidDay
  else if 23 < hour then .error .invalidHour
  else if 59 < minute then .error .invalidMinute
  else if 59 < second then .error .invalidSecond
  else .ok ⟨year, month, day, hour, minute, second⟩

/-- Modelled from the spec: weekday derivation (1 = Sunday, ..., 7 = Saturday)
from the calendar date, via Zeller's congruence. -/
def zellerWeekday (y m d : Nat) : Nat :=
  let yy := if m < 3 then y - 1 else y
  let mm := if m < 3 then m + 12 else m
  let k := yy % 100
  let j := yy / 100
  let h := (d + 13 * (mm + 1) / 5 + k + k / 4 + j / 4 + 5 * j) % 7
  (h + 6) % 7 + 1

/-- Modelled from the spec: calculate_weekday of the calendar collaborator.
The interface is fallible, but the computation succeeds on every constructed
value. -/
def DateTime.calculate_weekday (dt : DateTime) : Except DateTimeError Nat :=
  .ok (zellerWeekday dt.year dt.month dt.day_of_month)

/-- Driver error type, from src/error.rs. The I2C variant carries an opaque
transport error in the source; the modelled bus never fails, so the variant is
never produced here. -/
inductive Error
  | i2c
  | invalidAddress
  | unsupportedSqwFrequency
  | dateTime (e : DateTimeError)
  | nvramOutOfBounds
deriving DecidableEq

/-- Modelled from the spec: register addresses of the chip's register map
(registers.rs is not among the provided sources; addresses are fixed by the
on-wire layout table). -/
inductive Register
  | seconds
  | minutes
  | hours
  | weekday
  | dayOfMonth
  | month
  | year
  | control
deriving DecidableEq

/-- Register address of each register, from the on-wire layout. -/
def Register.addr : Register → Nat
  | .seconds => 0x00
  | .minutes => 0x01
  | .hours => 0x02
  | .weekday => 0x03
  | .dayOfMonth => 0x04
  | .month => 0x05
  | .year => 0x06
  | .control => 0x07

/-- Modelled from the spec: clock-halt bit mask (bit 7 of the seconds
register). -/
def CH_BIT : Nat := 0x80

/-- Modelled from the spec: square-wave-enable bit mask (bit 4 of the control
register). -/
def SQWE_BIT : Nat := 0x10

/-- Modelled from the spec: static output-level bit mask (bit 7 of the control
register). -/
def OUT_BIT : Nat := 0x80

/-- Modelled from the spec: rate-select field mask (bits 1-0 of the control
register). -/
def RS_MASK : Nat := 0x03

/-- Fixed DS1307 I2C device address, from src/ds1307.rs. -/
def I2C_ADDR : Nat := 0x68

/-- Bitwise complement on a byte (Rust !mask on u8). -/
def not8 (m : Nat) : Nat := 255 - m % 256

/-- Pure hour decoding performed by get_datetime (src/datetime.rs): bit 6
selects 12-hour mode, in which bit 5 is the PM flag and bits 4-0 the BCD hour;
otherwise bits 5-0 are the BCD hour. -/
def decodeHour (raw : Nat) : Nat :=
  if raw &&& 0x40 ≠ 0 then
    let hr := toDecimal (raw &&& 0x1F)
    let pm := raw &&& 0x20 ≠ 0
    if pm ∧ hr ≠ 12 then hr + 12
    else if ¬pm ∧ hr = 12 then 0
    else hr
  else
    toDecimal (raw &&& 0x3F)

/-- Pure decoding of the seven time registers by get_datetime
(src/datetime.rs). The weekday byte d3 is read but not used, exactly as in the
source, where the corresponding code is commented out. -/
def decodeDatetime (d0 d1 d2 d3 d4 d5 d6 : Nat) : Except Error DateTime :=
  let second := toDecimal (d0 &&& 0x7F)
  let minute := toDecimal d1
  let hour := decodeHour d2
  let day_of_month := toDecimal d4
  let month := toDecimal d5
  let year := 2000 + toDecimal d6
  (DateTime.new year month day_of_month hour minute second).mapError
    Error.dateTime

/-- Pure encoding performed by set_datetime (src/datetime.rs) before its single
burst write: the year-window check, then the 8-byte buffer (start address byte
followed by the 7 payload bytes). -/
def setDatetimeBytes (dt : DateTime) : Except Error (List Nat) :=
  if dt.year < 2000 ∨ 2099 < dt.year then .error (.dateTime .invalidYear)
  else
    match dt.calculate_weekday with
    | .error e => .error (.dateTime e)
    | .ok wd =>
      .ok [Register.seconds.addr,
           fromDecimal dt.second &&& 0x7F,
           fromDecimal dt.minute,
           fromDecimal dt.hour &&& 0x3F,
           fromDecimal wd,
           fromDecimal dt.day_of_month,
           fromDecimal dt.month,
           fromDecimal (dt.year - 2000)]

/-- Bus transactions observable at the I2C transport boundary: a write of raw
bytes, or a write of one address byte followed by a read of a given length. -/
inductive Txn
  | write (devAddr : Nat) (bytes : List Nat)
  | writeRead (devAddr : Nat) (addrByte : Nat) (readLen : Nat)
deriving DecidableEq

/-- Device register file as seen over the bus. The modelled transport never
fails, so driver errors come only from the driver's own validation. -/
structure BusState where
  regs : Nat → Nat

/-- Update one register. -/
def BusState.set1 (s : BusState) (a v : Nat) : BusState :=
  ⟨Function.update s.regs a v⟩

/-- Sequential (auto-incrementing) update of consecutive registers. -/
def setSeq (f : Nat → Nat) (base : Nat) : List Nat → (Nat → Nat)
  | [] => f
  | v :: rest => setSeq (Function.update f base v) (base + 1) rest

/-- Burst write: the first byte is the start register address, the rest is the
payload, stored at consecutive addresses by the device's auto-increment. -/
def BusState.burst (s : BusState) (data : List Nat) : BusState :=
  match data with
  | [] => s
  | a :: payload => ⟨setSeq s.regs a payload⟩

/-- write_register from src/ds1307.rs: one I2C write of [address, value]. -/
def write_register (s : BusState) (r : Register) (v : Nat) :
    BusState × List Txn :=
  (s.set1 r.addr v, [Txn.write I2C_ADDR [r.addr, v]])

/-- read_register from src/ds1307.rs: one I2C write_read of one byte. -/
def read_register (s : BusState) (r : Register) : Nat × List Txn :=
  (s.regs r.addr, [Txn.writeRead I2C_ADDR r.addr 1])

/-- read_register_bytes / read_bytes_at_address from src/ds1307.rs: one burst
read of len bytes starting at address a. -/
def readBytesAt (s : BusState) (a len : Nat) : List Nat × List Txn :=
  ((List.range len).map (fun i => s.regs (a + i)),
   [Txn.writeRead I2C_ADDR a len])

/-- write_raw_bytes from src/ds1307.rs: one I2C write of the raw buffer. -/
def write_raw_bytes (s : BusState) (data : List Nat) : BusState × List Txn :=
  (s.burst data, [Txn.write I2C_ADDR data])

/-- set_register_bits from src/ds1307.rs: read-modify-write setting the mask
bits, writing only when the value changes. -/
def set_register_bits (s : BusState) (r : Register) (mask : Nat) :
    BusState × List Txn :=
  let current := (read_register s r).1
  let rd := (read_register s r).2
  let newValue := current ||| mask
  if newValue ≠ current then
    let wr := write_register s r newValue
    (wr.1, rd ++ wr.2)
  else (s, rd)

/-- clear_register_bits from src/ds1307.rs: read-modify-write clearing the mask
bits, writing only when the value changes. -/
def clear_register_bits (s : BusState) (r : Register) (mask : Nat) :
    BusState × List Txn :=
  let current := (read_register s r).1
  let rd := (read_register s r).2
  let newValue := current &&& not8 mask
  if newValue ≠ current then
    let wr := write_register s r newValue
    (wr.1, rd ++ wr.2)
  else (s, rd)

/-- get_datetime from src/datetime.rs: one burst read of the seven registers at
0x00-0x06, then the pure decode. -/
def get_datetime (s : BusState) :
    Except Error DateTime × BusState × List Txn :=
  (decodeDatetime (s.regs 0) (s.regs 1) (s.regs 2) (s.regs 3)
     (s.regs 4) (s.regs 5) (s.regs 6),
   s, [Txn.writeRead I2C_ADDR Register.seconds.addr 7])

/-- set_datetime from src/datetime.rs: all validation and encoding precede the
single burst write; on a validation error no transaction is issued. -/
def set_datetime (s : BusState) (dt : DateTime) :
    Except Error Unit × BusState × List Txn :=
  match setDatetimeBytes dt with
  | .error e => (.error e, s, [])
  | .ok data =>
    let w := write_raw_bytes s data
    (.ok (), w.1, w.2)

/-- Modelled from the spec: the shared square-wave frequency enumerator has the
four rates the DS1307 supports plus further rates; hz1024 stands for the
enumerator values outside the supported set. -/
inductive SquareWaveFreq
  | hz1
  | hz1024
  | hz4096
  | hz8192
  | hz32768
deriving DecidableEq

/-- freq_to_bits from src/square_wave.rs: map a frequency to the 2-bit
rate-select code, rejecting unsupported rates. -/
def freq_to_bits : SquareWaveFreq → Except Error Nat
  | .hz1 => .ok 0x00
  | .hz4096 => .ok 0x01
  | .hz8192 => .ok 0x02
  | .hz32768 => .ok 0x03
  | _ => .error .unsupportedSqwFrequency

/-- start_square_wave from src/square_wave.rs: validate the frequency first,
then read the control register, clear RS, set the new code, set SQWE, clear
OUT, and write only if changed. -/
def start_square_wave (s : BusState) (f : SquareWaveFreq) :
    Except Error Unit × BusState × List Txn :=
  match freq_to_bits f with
  | .error e => (.error e, s, [])
  | .ok rs =>
    let current := (read_register s .control).1
    let rd := (read_register s .control).2
    let newValue := (((current &&& not8 RS_MASK) ||| rs) ||| SQWE_BIT)
        &&& not8 OUT_BIT
    if newValue ≠ current then
      let wr := write_register s .control newValue
      (.ok (), wr.1, rd ++ wr.2)
    else (.ok (), s, rd)

/-- set_square_wave_frequency from src/square_wave.rs: validate the frequency
first, then update only the RS field, preserving the enable state, writing only
if changed. -/
def set_square_wave_frequency (s : BusState) (f : SquareWaveFreq) :
    Except Error Unit × BusState × List Txn :=
  match freq_to_bits f with
  | .error e => (.error e, s, [])
  | .ok rs =>
    let current := (read_register s .control).1
    let rd := (read_register s .control).2
    let newValue := (current &&& not8 RS_MASK) ||| rs
    if newValue ≠ current then
      let wr := write_register s .control newValue
      (.ok (), wr.1, rd ++ wr.2)
    else (.ok (), s, rd)

/-- NVRAM start address, from src/nvram.rs. -/
def NVRAM_START : Nat := 0x08

/-- NVRAM size in bytes, from src/nvram.rs. -/
def NVRAM_SIZE : Nat := 56

/-- validate_nvram_bounds from src/nvram.rs: reject when the offset is outside
the region or the remaining space cannot hold len bytes. -/
def validate_nvram_bounds (offset len : Nat) : Except Error Unit :=
  if NVRAM_SIZE ≤ offset then .error .nvramOutOfBounds
  else if NVRAM_SIZE - offset < len then .error .nvramOutOfBounds
  else .ok ()

/-- read_nvram from src/nvram.rs; the caller's output buffer is modelled by its
length, and the bytes read are returned in the result. -/
def read_nvram (s : BusState) (offset len : Nat) :
    Except Error (List Nat) × BusState × List Txn :=
  if len = 0 then (.ok [], s, [])
  else
    match validate_nvram_bounds offset len with
    | .error e => (.error e, s, [])
    | .ok _ =>
      let rd := readBytesAt s (NVRAM_START + offset) len
      (.ok rd.1, s, rd.2)

/-- write_nvram from src/nvram.rs: after the empty short-circuit and bounds
validation, the 57-byte scratch buffer sliced to data.len()+1 bytes equals the
target address byte followed by the data, written in one burst. -/
def write_nvram (s : BusState) (offset : Nat) (data : List Nat) :
    Except Error Unit × BusState × List Txn :=
  if data.isEmpty then (.ok (), s, [])
  else
    match validate_nvram_bounds offset data.length with
    | .error e => (.error e, s, [])
    | .ok _ =>
      let w := write_raw_bytes s ((NVRAM_START + offset) :: data)
      (.ok (), w.1, w.2)

/-! ## Helper lemmas -/

/-- BCD round trip for two-digit values. -/
theorem bcd_roundtrip : ∀ v, v < 100 → toDecimal (fromDecimal v) = v := by
  decide

/-- Seconds round trip through the clock-halt masks on both the encode and the
decode side. -/
theorem sec_mask_roundtrip :
    ∀ v, v < 60 → toDecimal (fromDecimal v &&& 0x7F &&& 0x7F) = v := by
  decide

/-- Hour round trip: a 24-hour-mode byte written by the encoder decodes back to
the same hour. -/
theorem hour_mask_roundtrip :
    ∀ h, h < 24 → decodeHour (fromDecimal h &&& 0x3F) = h := by
  decide

/-- The calendar constructor succeeds on in-range fields and returns them
unchanged. -/
theorem DateTime.new_ok (y mo d h mi sec : Nat)
    (hmo1 : 1 ≤ mo) (hmo2 : mo ≤ 12)
    (hd1 : 1 ≤ d) (hd2 : d ≤ daysInMonth y mo)
    (hh : h ≤ 23) (hmi : mi ≤ 59) (hs : sec ≤ 59) :
    DateTime.new y mo d h mi sec = .ok ⟨y, mo, d, h, mi, sec⟩ := by
  unfold DateTime.new
  rw [if_neg (by omega), if_neg (by omega), if_neg (by omega),
    if_neg (by omega), if_neg (by omega)]

/-- Setting the same bits twice is the same as setting them once. -/
theorem lor_lor_self (a b : Nat) : a ||| b ||| b = a ||| b := by
  apply Nat.eq_of_testBit_eq
  intro i
  simp [Nat.testBit_or, Bool.or_assoc]

/-- Masking with the same bits twice is the same as masking once. -/
theorem land_land_self (a b : Nat) : a &&& b &&& b = a &&& b := by
  apply Nat.eq_of_testBit_eq
  intro i
  simp [Nat.testBit_and, Bool.and_assoc]

/-- Bounds validation fails on every out-of-range request. -/
theorem validate_nvram_bounds_error (offset len : Nat)
    (h : 56 ≤ offset ∨ 56 < offset + len) :
    validate_nvram_bounds offset len = .error .nvramOutOfBounds := by
  unfold validate_nvram_bounds NVRAM_SIZE
  rcases Nat.lt_or_ge offset 56 with ho | ho
  · rw [if_neg (by omega), if_pos (by omega)]
  · rw [if_pos (by omega)]

/-- Bounds validation succeeds on every in-range request. -/
theorem validate_nvram_bounds_success (offset len : Nat)
    (h : offset + len ≤ 56) (hlen : 0 < len) :
    validate_nvram_bounds offset len = .ok () := by
  unfold validate_nvram_bounds NVRAM_SIZE
  rw [if_neg (by omega), if_neg (by omega)]

/-- Every month has at most 31 days. -/
theorem daysInMonth_le (y m : Nat) : daysInMonth y m ≤ 31 := by
  unfold daysInMonth
  split
  · split <;> omega
  · split <;> omega

/-! ## Claim theorems -/

/-- C2: set_datetime rejects every year outside 2000-2099 with the
invalid-date-time error before issuing any bus transaction (the state is
untouched and the transaction log empty), while for year 2000 or 2099 the year
check passes and the call succeeds. -/
theorem set_datetime_year_window (s : BusState) (dt : DateTime) :
    ((dt.year < 2000 ∨ 2099 < dt.year) →
      set_datetime s dt = (.error (.dateTime .invalidYear), s, []))
    ∧ ((dt.year = 2000 ∨ dt.year = 2099) →
      (set_datetime s dt).1 = .ok ()) := by
  constructor
  · intro hy
    unfold set_datetime setDatetimeBytes
    rw [if_pos hy]
  · intro hy
    unfold set_datetime setDatetimeBytes
    rw [if_neg (by omega)]
    simp only [DateTime.calculate_weekday]

/-- Witness for C2 at concrete inputs: year 1999 is rejected without any
transaction, year 2000 is accepted. -/
theorem set_datetime_year_window_witness :
    set_datetime ⟨fun _ => 0⟩ ⟨1999, 1, 1, 0, 0, 0⟩
      = (.error (.dateTime .invalidYear), ⟨fun _ => 0⟩, [])
    ∧ (set_datetime ⟨fun _ => 0⟩ ⟨2000, 1, 1, 0, 0, 0⟩).1 = .ok () :=
  ⟨(set_datetime_year_window ⟨fun _ => 0⟩ ⟨1999, 1, 1, 0, 0, 0⟩).1
      (Or.inl (by decide)),
   (set_datetime_year_window ⟨fun _ => 0⟩ ⟨2000, 1, 1, 0, 0, 0⟩).2
      (Or.inl (by decide))⟩

/-- C4: freq_to_bits maps Hz1 to 0b00, Hz4096 to 0b01, Hz8192 to 0b10 and
Hz32768 to 0b11; on every other enumerator value freq_to_bits fails with the
unsupported-frequency error, and start_square_wave and
set_square_wave_frequency return that error with the state untouched and zero
bus transactions. -/
theorem square_wave_freq_mapping (s : BusState) :
    freq_to_bits .hz1 = .ok 0x00
    ∧ freq_to_bits .hz4096 = .ok 0x01
    ∧ freq_to_bits .hz8192 = .ok 0x02
    ∧ freq_to_bits .hz32768 = .ok 0x03
    ∧ (∀ f : SquareWaveFreq,
        f ≠ .hz1 → f ≠ .hz4096 → f ≠ .hz8192 → f ≠ .hz32768 →
        freq_to_bits f = .error .unsupportedSqwFrequency
        ∧ start_square_wave s f = (.error .unsupportedSqwFrequency, s, [])
        ∧ set_square_wave_frequency s f
            = (.error .unsupportedSqwFrequency, s, [])) := by
  refine ⟨rfl, rfl, rfl, rfl, ?_⟩
  intro f h1 h2 h3 h4
  cases f
  · exact absurd rfl h1
  · exact ⟨rfl, rfl, rfl⟩
  · exact absurd rfl h2
  · exact absurd rfl h3
  · exact absurd rfl h4

/-- Witness for C4 at a concrete input: the 1.024 kHz rate is rejected by both
operations with zero transactions. -/
theorem square_wave_freq_mapping_witness :
    freq_to_bits .hz1024 = .error .unsupportedSqwFrequency
    ∧ start_square_wave ⟨fun _ => 0⟩ .hz1024
        = (.error .unsupportedSqwFrequency, ⟨fun _ => 0⟩, [])
    ∧ set_square_wave_frequency ⟨fun _ => 0⟩ .hz1024
        = (.error .unsupportedSqwFrequency, ⟨fun _ => 0⟩, []) :=
  (square_wave_freq_mapping ⟨fun _ => 0⟩).2.2.2.2 .hz1024
    (by decide) (by decide) (by decide) (by decide)

/-- C6: with an empty buffer or empty data slice, read_nvram and write_nvram
succeed with zero bus transactions and an unchanged state, for every offset,
including out-of-range offsets. -/
theorem nvram_empty_noop (s : BusState) (offset : Nat) :
    read_nvram s offset 0 = (.ok [], s, [])
    ∧ write_nvram s offset [] = (.ok (), s, []) :=
  ⟨rfl, rfl⟩

/-- C7: set_register_bits and clear_register_bits read the current byte and
write the updated value exactly when it differs from the current one; when the
register already holds the target value the operation issues one read and no
write, and repeating either operation leaves the state unchanged and performs
no write on the second call. -/
theorem register_bits_rmw (s : BusState) (r : Register) (mask : Nat) :
    (set_register_bits s r mask =
      if s.regs r.addr ||| mask = s.regs r.addr then
        (s, [Txn.writeRead I2C_ADDR r.addr 1])
      else
        (s.set1 r.addr (s.regs r.addr ||| mask),
         [Txn.writeRead I2C_ADDR r.addr 1,
          Txn.write I2C_ADDR [r.addr, s.regs r.addr ||| mask]]))
    ∧ (clear_register_bits s r mask =
      if s.regs r.addr &&& not8 mask = s.regs r.addr then
        (s, [Txn.writeRead I2C_ADDR r.addr 1])
      else
        (s.set1 r.addr (s.regs r.addr &&& not8 mask),
         [Txn.writeRead I2C_ADDR r.addr 1,
          Txn.write I2C_ADDR [r.addr, s.regs r.addr &&& not8 mask]]))
    ∧ (set_register_bits (set_register_bits s r mask).1 r mask
        = ((set_register_bits s r mask).1,
           [Txn.writeRead I2C_ADDR r.addr 1]))
    ∧ (clear_register_bits (clear_register_bits s r mask).1 r mask
        = ((clear_register_bits s r mask).1,
           [Txn.writeRead I2C_ADDR r.addr 1])) := by
  have hset : ∀ t : BusState, set_register_bits t r mask =
      if t.regs r.addr ||| mask = t.regs r.addr then
        (t, [Txn.writeRead I2C_ADDR r.addr 1])
      else
        (t.set1 r.addr (t.regs r.addr ||| mask),
         [Txn.writeRead I2C_ADDR r.addr 1,
          Txn.write I2C_ADDR [r.addr, t.regs r.addr ||| mask]]) := by
    intro t
    unfold set_register_bits read_register write_register
    by_cases hc : t.regs r.addr ||| mask = t.regs r.addr
    · rw [if_neg (not_not_intro hc), if_pos hc]
    · rw [if_pos hc, if_neg hc]
      rfl
  have hclear : ∀ t : BusState, clear_register_bits t r mask =
      if t.regs r.addr &&& not8 mask = t.regs r.addr then
        (t, [Txn.writeRead I2C_ADDR r.addr 1])
      else
        (t.set1 r.addr (t.regs r.addr &&& not8 mask),
         [Txn.writeRead I2C_ADDR r.addr 1,
          Txn.write I2C_ADDR [r.addr, t.regs r.addr &&& not8 mask]]) := by
    intro t
    unfold clear_register_bits read_register write_register
    by_cases hc : t.regs r.addr &&& not8 mask = t.regs r.addr
    · rw [if_neg (not_not_intro hc), if_pos hc]
    · rw [if_pos hc, if_neg hc]
      rfl
  refine ⟨hset s, hclear s, ?_, ?_⟩
  · rw [hset s]
    by_cases hc : s.regs r.addr ||| mask = s.regs r.addr
    · rw [if_pos hc, hset s, if_pos hc]
    · rw [if_neg hc]
      rw [hset (s.set1 r.addr (s.regs r.addr ||| mask))]
      have hreg : (s.set1 r.addr (s.regs r.addr ||| mask)).regs r.addr
          = s.regs r.addr ||| mask := by
        unfold BusState.set1
        exact Function.update_same r.addr (s.regs r.addr ||| mask) s.regs
      rw [if_pos (by rw [hreg]; exact lor_lor_self _ _)]
  · rw [hclear s]
    by_cases hc : s.regs r.addr &&& not8 mask = s.regs r.addr
    · rw [if_pos hc, hclear s, if_pos hc]
    · rw [if_neg hc]
      rw [hclear (s.set1 r.addr (s.regs r.addr &&& not8 mask))]
      have hreg : (s.set1 r.addr (s.regs r.addr &&& not8 mask)).regs r.addr
          = s.regs r.addr &&& not8 mask := by
        unfold BusState.set1
        exact Function.update_same r.addr (s.regs r.addr &&& not8 mask) s.regs
      rw [if_pos (by rw [hreg]; exact land_land_self _ _)]

/-- C5: on a non-empty buffer, read_nvram and write_nvram fail with the
out-of-bounds error exactly when the offset is at least 56 or offset plus
length exceeds 56, with the state untouched and zero transactions; in bounds,
read_nvram issues one burst read at 0x08 + offset and write_nvram issues one
burst write of the target address byte followed by the data. -/
theorem nvram_bounds_check (s : BusState) (offset len : Nat) (data : List Nat)
    (hlen : 0 < len) (hdata : data ≠ []) :
    ((56 ≤ offset ∨ 56 < offset + len) →
      read_nvram s offset len = (.error .nvramOutOfBounds, s, []))
    ∧ (offset + len ≤ 56 →
      read_nvram s offset len
        = (.ok ((List.range len).map (fun i => s.regs (NVRAM_START + offset + i))),
           s, [Txn.writeRead I2C_ADDR (NVRAM_START + offset) len]))
    ∧ ((56 ≤ offset ∨ 56 < offset + data.length) →
      write_nvram s offset data = (.error .nvramOutOfBounds, s, []))
    ∧ (offset + data.length ≤ 56 →
      write_nvram s offset data
        = (.ok (), s.burst ((NVRAM_START + offset) :: data),
           [Txn.write I2C_ADDR ((NVRAM_START + offset) :: data)])) := by
  have hne : ¬data.isEmpty = true := by
    simpa using hdata
  have hdlen : 0 < data.length := List.length_pos.mpr hdata
  refine ⟨fun h => ?_, fun h => ?_, fun h => ?_, fun h => ?_⟩
  · unfold read_nvram
    rw [if_neg (by omega), validate_nvram_bounds_error offset len h]
  · unfold read_nvram
    rw [if_neg (by omega), validate_nvram_bounds_success offset len h hlen]
    rfl
  · unfold write_nvram
    rw [if_neg hne, validate_nvram_bounds_error offset data.length h]
  · unfold write_nvram
    rw [if_neg hne,
      validate_nvram_bounds_success offset data.length h hdlen]
    rfl

/-- Witness for C5 at the spec's concrete inputs: a two-byte write at offset 55
is rejected without a transaction, and at offset 54 it issues the single burst
write [0x08 + 54, 1, 2]. -/
theorem nvram_bounds_check_witness :
    write_nvram ⟨fun _ => 0⟩ 55 [1, 2]
      = (.error .nvramOutOfBounds, ⟨fun _ => 0⟩, [])
    ∧ write_nvram ⟨fun _ => 0⟩ 54 [1, 2]
      = (.ok (), BusState.burst ⟨fun _ => 0⟩ ((NVRAM_START + 54) :: [1, 2]),
         [Txn.write I2C_ADDR ((NVRAM_START + 54) :: [1, 2])]) :=
  ⟨(nvram_bounds_check ⟨fun _ => 0⟩ 55 1 [1, 2] (by decide) (by decide)).2.2.1
      (Or.inr (by decide)),
   (nvram_bounds_check ⟨fun _ => 0⟩ 54 1 [1, 2] (by decide) (by decide)).2.2.2
      (by decide)⟩

/-- C8: every byte buffer accepted and produced by set_datetime has bit 7 of
the seconds byte (the clock-halt bit) clear and bit 6 of the hours byte (the
12/24-hour mode bit) clear: the oscillator is left enabled and 24-hour mode is
always used. -/
theorem set_datetime_forces_bits (dt : DateTime) (bytes : List Nat)
    (h : setDatetimeBytes dt = .ok bytes) :
    bytes.getD 1 0 &&& 0x80 = 0 ∧ bytes.getD 3 0 &&& 0x40 = 0 := by
  unfold setDatetimeBytes at h
  by_cases hy : dt.year < 2000 ∨ 2099 < dt.year
  · rw [if_pos hy] at h
    exact absurd h (by simp)
  · rw [if_neg hy] at h
    simp only [DateTime.calculate_weekday] at h
    injection h with h
    subst h
    constructor
    · show fromDecimal dt.second &&& 0x7F &&& 0x80 = 0
      rw [Nat.land_assoc]
      rw [(by decide : (0x7F &&& 0x80 : Nat) = 0)]
      exact Nat.and_zero _
    · show fromDecimal dt.hour &&& 0x3F &&& 0x40 = 0
      rw [Nat.land_assoc]
      rw [(by decide : (0x3F &&& 0x40 : Nat) = 0)]
      exact Nat.and_zero _

/-- Witness for C8 at a concrete input: the buffer encoded for
2024-01-01 00:00:00 has the clock-halt and mode bits clear. -/
theorem set_datetime_forces_bits_witness :
    List.getD [0, 0, 0, 0, 2, 1, 1, 36] 1 0 &&& 0x80 = 0
    ∧ List.getD [0, 0, 0, 0, 2, 1, 1, 36] 3 0 &&& 0x40 = 0 :=
  set_datetime_forces_bits ⟨2024, 1, 1, 0, 0, 0⟩ [0, 0, 0, 0, 2, 1, 1, 36]
    rfl

/-- C9: the result of get_datetime does not depend on the weekday byte: two
register snapshots that agree on the seven time registers everywhere except
byte 3 decode to the same result. -/
theorem get_datetime_ignores_weekday (s1 s2 : BusState)
    (h : ∀ i, i < 7 → i ≠ 3 → s1.regs i = s2.regs i) :
    (get_datetime s1).1 = (get_datetime s2).1 := by
  show decodeDatetime (s1.regs 0) (s1.regs 1) (s1.regs 2) (s1.regs 3)
      (s1.regs 4) (s1.regs 5) (s1.regs 6)
    = decodeDatetime (s2.regs 0) (s2.regs 1) (s2.regs 2) (s2.regs 3)
      (s2.regs 4) (s2.regs 5) (s2.regs 6)
  rw [h 0 (by omega) (by omega), h 1 (by omega) (by omega),
    h 2 (by omega) (by omega), h 4 (by omega) (by omega),
    h 5 (by omega) (by omega), h 6 (by omega) (by omega)]
  rfl

/-- Witness for C9 at concrete snapshots differing only in the weekday byte. -/
theorem get_datetime_ignores_weekday_witness :
    (get_datetime ⟨fun _ => 0⟩).1
      = (get_datetime ⟨fun i => if i = 3 then 9 else 0⟩).1 :=
  get_datetime_ignores_weekday ⟨fun _ => 0⟩ ⟨fun i => if i = 3 then 9 else 0⟩
    (by decide)

/-- C10: whenever bounds validation accepts a non-empty request, the arithmetic
in write_nvram is safe: the offset is below 56 (so the u8 subtraction
56 - offset cannot underflow), the length fits the remaining space, the
57-byte scratch buffer holds data.len() + 1 bytes, and the target address
0x08 + offset fits in a u8. -/
theorem write_nvram_arithmetic_safe (offset len : Nat)
    (hok : validate_nvram_bounds offset len = .ok ()) (hlen : 1 ≤ len) :
    offset < 56 ∧ len ≤ 56 - offset ∧ len + 1 ≤ 57
    ∧ NVRAM_START + offset < 256 := by
  unfold validate_nvram_bounds NVRAM_SIZE at hok
  by_cases h1 : 56 ≤ offset
  · rw [if_pos h1] at hok
    exact absurd hok (by simp)
  · rw [if_neg h1] at hok
    by_cases h2 : 56 - offset < len
    · rw [if_pos h2] at hok
      exact absurd hok (by simp)
    · refine ⟨by omega, by omega, by omega, ?_⟩
      show 8 + offset < 256
      omega

/-- Witness for C10 at a concrete input: a one-byte request at offset 0. -/
theorem write_nvram_arithmetic_safe_witness :
    0 < 56 ∧ 1 ≤ 56 - 0 ∧ 1 + 1 ≤ 57 ∧ NVRAM_START + 0 < 256 :=
  write_nvram_arithmetic_safe 0 1 rfl (by decide)

/-- Hour decoding as the claim words it: if bit 6 is set, bits 4-0 are
BCD-decoded as an hour 1-12 and bit 5 is the PM flag, converted to 24-hour
numbering so that 12 AM maps to 0, 12 PM stays 12, and any other PM hour gains
12; if bit 6 is clear, bits 5-0 are BCD-decoded directly. Stated independently
of the source's decodeHour for comparison. -/
def claimHourDecode (raw : Nat) : Nat :=
  if Nat.testBit raw 6 then
    let hr := toDecimal (raw &&& 0x1F)
    if Nat.testBit raw 5 then
      if hr = 12 then 12 else hr + 12
    else
      if hr = 12 then 0 else hr
  else
    toDecimal (raw &&& 0x3F)

set_option maxRecDepth 4096 in
/-- C3: for every raw hours byte, the hour decoding performed by get_datetime
agrees with the claim's description of the 12-hour/24-hour mode branch. -/
theorem decode_hour_matches_claim :
    ∀ raw, raw < 256 → decodeHour raw = claimHourDecode raw := by
  decide

/-- Witness for C3 at a concrete input: the byte 0x72 (12-hour mode, PM,
hour 12) decodes the same way on both sides. -/
theorem decode_hour_matches_claim_witness :
    decodeHour 0x72 = claimHourDecode 0x72 :=
  decode_hour_matches_claim 0x72 (by decide)

/-- C1: for every date-time whose fields are in range (year 2000-2099, month
1-12, valid day-of-month, hour 0-23, minute and second 0-59), encoding with
set_datetime and decoding the exact 7 payload bytes it wrote with the
get_datetime decoder returns the identical date-time. -/
theorem set_get_datetime_roundtrip (y mo d h mi sec : Nat)
    (hy1 : 2000 ≤ y) (hy2 : y ≤ 2099)
    (hmo1 : 1 ≤ mo) (hmo2 : mo ≤ 12)
    (hd1 : 1 ≤ d) (hd2 : d ≤ daysInMonth y mo)
    (hh : h ≤ 23) (hmi : mi ≤ 59) (hs : sec ≤ 59) :
    ∃ bytes, setDatetimeBytes ⟨y, mo, d, h, mi, sec⟩ = .ok bytes ∧
      decodeDatetime (bytes.getD 1 0) (bytes.getD 2 0) (bytes.getD 3 0)
        (bytes.getD 4 0) (bytes.getD 5 0) (bytes.getD 6 0) (bytes.getD 7 0)
        = .ok ⟨y, mo, d, h, mi, sec⟩ := by
  have henc : setDatetimeBytes ⟨y, mo, d, h, mi, sec⟩ =
      .ok [Register.seconds.addr,
           fromDecimal sec &&& 0x7F,
           fromDecimal mi,
           fromDecimal h &&& 0x3F,
           fromDecimal (zellerWeekday y mo d),
           fromDecimal d,
           fromDecimal mo,
           fromDecimal (y - 2000)] := by
    unfold setDatetimeBytes
    have hyneg : ¬((⟨y, mo, d, h, mi, sec⟩ : DateTime).year < 2000
        ∨ 2099 < (⟨y, mo, d, h, mi, sec⟩ : DateTime).year) := by
      show ¬(y < 2000 ∨ 2099 < y)
      omega
    rw [if_neg hyneg]
    rfl
  refine ⟨_, henc, ?_⟩
  show decodeDatetime (fromDecimal sec &&& 0x7F) (fromDecimal mi)
      (fromDecimal h &&& 0x3F) (fromDecimal (zellerWeekday y mo d))
      (fromDecimal d) (fromDecimal mo) (fromDecimal (y - 2000))
    = .ok ⟨y, mo, d, h, mi, sec⟩
  simp only [decodeDatetime]
  rw [sec_mask_roundtrip sec (by omega), bcd_roundtrip mi (by omega),
    hour_mask_roundtrip h (by omega),
    bcd_roundtrip d (by have := daysInMonth_le y mo; omega),
    bcd_roundtrip mo (by omega), bcd_roundtrip (y - 2000) (by omega),
    (by omega : 2000 + (y - 2000) = y),
    DateTime.new_ok y mo d h mi sec hmo1 hmo2 hd1 hd2 hh hmi hs]
  rfl

/-- Witness for C1 at a concrete input: 2024-02-29 23:59:58 (a leap-day value)
round-trips through the encoder and decoder. -/
theorem set_get_datetime_roundtrip_witness :
    ∃ bytes, setDatetimeBytes ⟨2024, 2, 29, 23, 59, 58⟩ = .ok bytes ∧
      decodeDatetime (bytes.getD 1 0) (bytes.getD 2 0) (bytes.getD 3 0)
        (bytes.getD 4 0) (bytes.getD 5 0) (bytes.getD 6 0) (bytes.getD 7 0)
        = .ok ⟨2024, 2, 29, 23, 59, 58⟩ :=
  set_get_datetime_roundtrip 2024 2 29 23 59 58 (by decide) (by decide)
    (by decide) (by decide) (by decide) (by decide) (by decide) (by decide)
    (by decide)

end DS1307
